import Mathlib

/-!
Shallow embedding of `omaha/protocol.go` (package `omaha` of go-omaha):
the Omaha v3 protocol message model, its builder methods, and its XML
wire serialization as performed by Go's `encoding/xml` on the struct
tags declared in the source.

The wire form is modelled at the XML-document level: an element with a
name, an ordered attribute list and an ordered child list.  Marshalling
follows Go's rules for the tags in the source: attribute fields render
in declaration order, `omitempty` fields are dropped at their zero
value, nil pointer fields are dropped, booleans render via
`strconv.FormatBool`, and `uint64` renders in decimal.  Unmarshalling
follows Go's rules: the root element name is checked against `XMLName`,
attributes are folded left to right into matching fields (unknown ones
ignored, missing ones left at the zero value), child elements are
dispatched by name, and `bool`/`uint64` attribute values are parsed
with `strconv.ParseBool` / `strconv.ParseUint` (failure is a decode
error).
-/

namespace Omaha

/-- One XML attribute: a name and a string value. -/
structure XmlAttr where
  name : String
  value : String
  deriving Repr, DecidableEq

/-- An XML element: tag name, ordered attributes, ordered children.
Character data is never produced by this protocol, so it is not modelled. -/
inductive Xml where
  | elem (name : String) (attrs : List XmlAttr) (children : List Xml)
  deriving Repr

/-- Tag name of an element. -/
def Xml.name : Xml → String
  | .elem n _ _ => n

/-- Attribute list of an element. -/
def Xml.attrs : Xml → List XmlAttr
  | .elem _ a _ => a

/-- Child list of an element. -/
def Xml.children : Xml → List Xml
  | .elem _ _ c => c

/-- First attribute with the given name, if any. -/
def findAttr (n : String) : List XmlAttr → Option String
  | [] => none
  | a :: l => if a.name = n then some a.value else findAttr n l

/-- First child element with the given tag name, if any. -/
def findChild (n : String) : List Xml → Option Xml
  | [] => none
  | c :: l => if c.name = n then some c else findChild n l

/-- An `omitempty` string attribute: absent at the empty string. -/
def attrOmit (n v : String) : List XmlAttr :=
  if v = "" then [] else [⟨n, v⟩]

/-- `strconv.FormatBool`: the wire form of a Go `bool`. -/
def boolString (b : Bool) : String :=
  if b then "true" else "false"

/-- An `omitempty` bool attribute: absent at `false`. -/
def attrBoolOmit (n : String) (b : Bool) : List XmlAttr :=
  if b then [⟨n, boolString b⟩] else []

/-- A nil-able (Go pointer) child element: absent when nil. -/
def optChild {α : Type} (o : Option α) (f : α → Xml) : List Xml :=
  match o with
  | none => []
  | some a => [f a]

/-- `strconv.ParseBool`: accepts exactly 1, t, T, TRUE, true, True,
0, f, F, FALSE, false, False. -/
def parseBool (s : String) : Option Bool :=
  if s = "1" ∨ s = "t" ∨ s = "T" ∨ s = "TRUE" ∨ s = "true" ∨ s = "True" then some true
  else if s = "0" ∨ s = "f" ∨ s = "F" ∨ s = "FALSE" ∨ s = "false" ∨ s = "False" then
    some false
  else none

/-- `strconv.FormatUint(n, 10)`: decimal rendering of a `uint64`. -/
def uintToString (n : Nat) : String :=
  if n = 0 then "0" else String.mk (((Nat.digits 10 n).map Nat.digitChar).reverse)

/-- `strconv.ParseUint(s, 10, 64)`: decimal digits only, value below `2 ^ 64`. -/
def parseUint (s : String) : Option Nat :=
  if s.data = [] then none
  else if s.data.all Char.isDigit then
    let v := s.data.foldl (fun a c => a * 10 + (c.toNat - 48)) 0
    if v < 2 ^ 64 then some v else none
  else none

/-! ## The data model, translated from the struct declarations in protocol.go.
Go pointers become `Option`, slices become `List`, `uint64` becomes `Nat`
(bounded by `2 ^ 64` where it matters), and the string-typed enumerations
`AppStatus`, `UpdateStatus`, `EventType`, `EventResult` become `String`. -/

/-- Modelled from the spec: `AppStatus` is a string-typed enumeration declared
outside protocol.go; symbolic codes are exchanged as string attributes. -/
abbrev AppStatus := String

/-- Modelled from the spec: `UpdateStatus` is a string-typed enumeration declared
outside protocol.go; symbolic codes are exchanged as string attributes. -/
abbrev UpdateStatus := String

/-- Modelled from the spec: `EventType` is a string-typed enumeration declared
outside protocol.go; symbolic codes are exchanged as string attributes. -/
abbrev EventType := String

/-- Modelled from the spec: `EventResult` is a string-typed enumeration declared
outside protocol.go; symbolic codes are exchanged as string attributes. -/
abbrev EventResult := String

/-- Go struct `Ping`. -/
structure Ping where
  LastReportDays : String := ""
  Status : String := ""
  deriving Repr, DecidableEq

/-- Go struct `OS`. -/
structure OS where
  Platform : String := ""
  Version : String := ""
  ServicePack : String := ""
  Arch : String := ""
  deriving Repr, DecidableEq

/-- Go struct `Event`.  The Go field `Type` is rendered `Type'` because
`Type` is reserved in Lean. -/
structure Event where
  Type' : EventType := ""
  Result : EventResult := ""
  PreviousVersion : String := ""
  ErrorCode : String := ""
  Status : String := ""
  deriving Repr, DecidableEq

/-- Go struct `URL`. -/
structure URL where
  CodeBase : String := ""
  deriving Repr, DecidableEq

/-- Go struct `URLs`: the intermediate wrapper holding the `url` list. -/
structure URLs where
  URLs : List URL := []
  deriving Repr, DecidableEq

/-- Go struct `Package`.  `Size` is a `uint64`, embedded as `Nat`. -/
structure Package where
  Hash : String := ""
  Name : String := ""
  Size : Nat := 0
  Required : Bool := false
  deriving Repr, DecidableEq

/-- Go struct `Action`. -/
structure Action where
  Event : String := ""
  ChromeOSVersion : String := ""
  Sha256 : String := ""
  NeedsAdmin : Bool := false
  IsDelta : Bool := false
  DisablePayloadBackoff : Bool := false
  MetadataSignatureRsa : String := ""
  MetadataSize : String := ""
  Deadline : String := ""
  deriving Repr, DecidableEq

/-- Go struct `Manifest`. -/
structure Manifest where
  Packages : List Package := []
  Actions : List Action := []
  Version : String := ""
  deriving Repr, DecidableEq

/-- Go struct `UpdateCheck`. -/
structure UpdateCheck where
  URLs : Option Omaha.URLs := none
  Manifest : Option Omaha.Manifest := none
  TargetVersionPrefix : String := ""
  Status : UpdateStatus := ""
  deriving Repr, DecidableEq

/-- Go struct `App`. -/
structure App where
  Ping : Option Omaha.Ping := none
  UpdateCheck : Option Omaha.UpdateCheck := none
  Events : List Event := []
  Id : String := ""
  Version : String := ""
  NextVersion : String := ""
  Lang : String := ""
  Client : String := ""
  InstallAge : String := ""
  Status : AppStatus := ""
  Track : String := ""
  FromTrack : String := ""
  BootId : String := ""
  MachineID : String := ""
  OEM : String := ""
  deriving Repr, DecidableEq

/-- Go struct `Request` (root element `request`). -/
structure Request where
  OS : Option Omaha.OS := none
  Apps : List App := []
  Protocol : String := ""
  Version : String := ""
  IsMachine : String := ""
  SessionId : String := ""
  UserId : String := ""
  InstallSource : String := ""
  TestSource : String := ""
  RequestId : String := ""
  UpdaterVersion : String := ""
  deriving Repr, DecidableEq

/-- Go struct `DayStart`. -/
structure DayStart where
  ElapsedSeconds : String := ""
  deriving Repr, DecidableEq

/-- Go struct `Response` (root element `response`). -/
structure Response where
  DayStart : Omaha.DayStart := {}
  Apps : List App := []
  Protocol : String := ""
  Server : String := ""
  deriving Repr, DecidableEq

/-! ## Builder methods, translated from protocol.go. -/

/-- Modelled from the spec: `version.Version`, the library-version string
imported from the mantle `version` package (not under this repository slice);
its concrete value is external. -/
def libraryVersion : String := "library-version"

/-- Modelled from the spec: `LocalPlatform()`, the locally detected platform
string (declared outside protocol.go). -/
def LocalPlatform : String := "local-platform"

/-- Modelled from the spec: `LocalArch()`, the locally detected architecture
string (declared outside protocol.go). -/
def LocalArch : String := "local-arch"

/-- Go `NewRequest`. -/
def NewRequest : Request :=
  { Protocol := "3.0"
    Version := libraryVersion
    OS := some { Platform := LocalPlatform, Arch := LocalArch } }

/-- Go `(*Request).AddApp`: appends a new `App` and returns it alongside the
updated request (Go returns the pointer stored at the end of `Apps`). -/
def Request.AddApp (r : Request) (id version : String) : Request × App :=
  let a : App := { Id := id, Version := version }
  ({ r with Apps := r.Apps ++ [a] }, a)

/-- Go `NewResponse`. -/
def NewResponse : Response :=
  { Protocol := "3.0"
    Server := "mantle"
    DayStart := { ElapsedSeconds := "0" } }

/-- Go `(*Response).AddApp`: appends a new `App` and returns it alongside the
updated response. -/
def Response.AddApp (r : Response) (id : String) (status : AppStatus) :
    Response × App :=
  let a : App := { Id := id, Status := status }
  ({ r with Apps := r.Apps ++ [a] }, a)

/-- Go `(*App).AddUpdateCheck`: installs a fresh zero `UpdateCheck` and
returns it alongside the updated app (Go returns the stored pointer). -/
def App.AddUpdateCheck (a : App) : App × Omaha.UpdateCheck :=
  ({ a with UpdateCheck := some {} }, {})

/-- Go `(*App).AddPing`. -/
def App.AddPing (a : App) : App :=
  { a with Ping := some {} }

/-- Go `(*App).AddEvent`: appends a new zeroed event. -/
def App.AddEvent (a : App) : App :=
  { a with Events := a.Events ++ [{}] }

/-- Go `(*UpdateCheck).AddURL`: allocates the `URLs` wrapper on first use,
then appends a `URL` with the given codebase. -/
def UpdateCheck.AddURL (u : UpdateCheck) (codebase : String) : UpdateCheck :=
  let w := match u.URLs with
    | none => ({} : Omaha.URLs)
    | some w => w
  { u with URLs := some { URLs := w.URLs ++ [{ CodeBase := codebase }] } }

/-- Go `(*UpdateCheck).AddManifest`: replaces any manifest with a fresh one
carrying the given version. -/
def UpdateCheck.AddManifest (u : UpdateCheck) (version : String) : UpdateCheck :=
  { u with Manifest := some { Version := version } }

/-- Go `(*Manifest).AddPackage`: appends a new zeroed package. -/
def Manifest.AddPackage (m : Manifest) : Manifest :=
  { m with Packages := m.Packages ++ [{}] }

/-- Go `(*Manifest).AddAction`: appends an action with the given event name. -/
def Manifest.AddAction (m : Manifest) (event : String) : Manifest :=
  { m with Actions := m.Actions ++ [{ Event := event }] }

/-! ## Marshalling: the tree to the XML document, per the struct tags. -/

/-- Attributes of `OS` (all `omitempty`). -/
def OS.marshal (o : OS) : Xml :=
  .elem "os"
    (attrOmit "platform" o.Platform ++ attrOmit "version" o.Version ++
      attrOmit "sp" o.ServicePack ++ attrOmit "arch" o.Arch) []

/-- `Ping` element (`r` and `status`, both `omitempty`). -/
def Ping.marshal (p : Ping) : Xml :=
  .elem "ping" (attrOmit "r" p.LastReportDays ++ attrOmit "status" p.Status) []

/-- `Event` element: `eventtype` and `eventresult` are unconditional,
the rest `omitempty`. -/
def Event.marshal (e : Event) : Xml :=
  .elem "event"
    ([⟨"eventtype", e.Type'⟩, ⟨"eventresult", e.Result⟩] ++
      attrOmit "previousversion" e.PreviousVersion ++
      attrOmit "errorcode" e.ErrorCode ++ attrOmit "status" e.Status) []

/-- `URL` element: `codebase` is unconditional. -/
def URL.marshal (u : URL) : Xml :=
  .elem "url" [⟨"codebase", u.CodeBase⟩] []

/-- `URLs` wrapper element. -/
def URLs.marshal (w : Omaha.URLs) : Xml :=
  .elem "urls" [] (w.URLs.map URL.marshal)

/-- `Package` element: all four attributes unconditional; `size` in decimal,
`required` via `strconv.FormatBool`. -/
def Package.marshal (p : Package) : Xml :=
  .elem "package"
    [⟨"hash", p.Hash⟩, ⟨"name", p.Name⟩, ⟨"size", uintToString p.Size⟩,
      ⟨"required", boolString p.Required⟩] []

/-- `Action` element: `event`, `ChromeOSVersion`, `sha256`, `needsadmin` and
`IsDelta` carry no `omitempty` and render unconditionally; the last four
fields are `omitempty`. -/
def Action.marshal (a : Action) : Xml :=
  .elem "action"
    ([⟨"event", a.Event⟩, ⟨"ChromeOSVersion", a.ChromeOSVersion⟩,
        ⟨"sha256", a.Sha256⟩, ⟨"needsadmin", boolString a.NeedsAdmin⟩,
        ⟨"IsDelta", boolString a.IsDelta⟩] ++
      attrBoolOmit "DisablePayloadBackoff" a.DisablePayloadBackoff ++
      attrOmit "MetadataSignatureRsa" a.MetadataSignatureRsa ++
      attrOmit "MetadataSize" a.MetadataSize ++
      attrOmit "deadline" a.Deadline) []

/-- `Manifest` element: the `packages>package` and `actions>action` tags
render the grouping elements unconditionally (a slice field pushes its
parent element even when empty — the source comments on exactly this for
`URLs`); `version` is unconditional. -/
def Manifest.marshal (m : Manifest) : Xml :=
  .elem "manifest" [⟨"version", m.Version⟩]
    [.elem "packages" [] (m.Packages.map Package.marshal),
      .elem "actions" [] (m.Actions.map Action.marshal)]

/-- `UpdateCheck` element: nil pointer children are dropped entirely. -/
def UpdateCheck.marshal (u : UpdateCheck) : Xml :=
  .elem "updatecheck"
    (attrOmit "targetversionprefix" u.TargetVersionPrefix ++
      attrOmit "status" u.Status)
    (optChild u.URLs Omaha.URLs.marshal ++ optChild u.Manifest Omaha.Manifest.marshal)

/-- `App` element: children `ping`, `updatecheck`, `event*`; all twelve
attributes `omitempty`. -/
def App.marshal (a : App) : Xml :=
  .elem "app"
    (attrOmit "appid" a.Id ++ attrOmit "version" a.Version ++
      attrOmit "nextversion" a.NextVersion ++ attrOmit "lang" a.Lang ++
      attrOmit "client" a.Client ++ attrOmit "installage" a.InstallAge ++
      attrOmit "status" a.Status ++ attrOmit "track" a.Track ++
      attrOmit "from_track" a.FromTrack ++ attrOmit "bootid" a.BootId ++
      attrOmit "machineid" a.MachineID ++ attrOmit "oem" a.OEM)
    (optChild a.Ping Omaha.Ping.marshal ++
      optChild a.UpdateCheck Omaha.UpdateCheck.marshal ++
      a.Events.map Omaha.Event.marshal)

/-- `DayStart` element: `elapsed_seconds` unconditional. -/
def DayStart.marshal (d : DayStart) : Xml :=
  .elem "daystart" [⟨"elapsed_seconds", d.ElapsedSeconds⟩] []

/-- `Request` root element: `protocol` unconditional, the other eight
attributes `omitempty`; children `os` (nil-able) then `app*`. -/
def Request.marshal (r : Request) : Xml :=
  .elem "request"
    ([⟨"protocol", r.Protocol⟩] ++ attrOmit "version" r.Version ++
      attrOmit "ismachine" r.IsMachine ++ attrOmit "sessionid" r.SessionId ++
      attrOmit "userid" r.UserId ++ attrOmit "installsource" r.InstallSource ++
      attrOmit "testsource" r.TestSource ++ attrOmit "requestid" r.RequestId ++
      attrOmit "updaterversion" r.UpdaterVersion)
    (optChild r.OS Omaha.OS.marshal ++ r.Apps.map Omaha.App.marshal)

/-- `Response` root element: `protocol` and `server` unconditional; children
`daystart` (a value field, always present) then `app*`. -/
def Response.marshal (r : Response) : Xml :=
  .elem "response" [⟨"protocol", r.Protocol⟩, ⟨"server", r.Server⟩]
    (Omaha.DayStart.marshal r.DayStart :: r.Apps.map Omaha.App.marshal)

/-! ## Unmarshalling: the XML document back to the tree.

Go's decoder folds the attributes of an element left to right into the
matching struct fields (an unmatched attribute is ignored, a missing one
leaves the field at its zero value), then dispatches child elements by
name (an unmatched child is ignored); a pointer field is allocated on
first use and re-used afterwards, a slice field appends.  A `bool` or
`uint64` attribute whose value fails `strconv` parsing is a decode
error.  Only `Request`/`Response` carry an `XMLName`, so only the root
element's name is checked. -/

/-- Fold one attribute into an `OS`. -/
def OS.applyAttr (o : Omaha.OS) (a : XmlAttr) : Omaha.OS :=
  if a.name = "platform" then { o with Platform := a.value }
  else if a.name = "version" then { o with Version := a.value }
  else if a.name = "sp" then { o with ServicePack := a.value }
  else if a.name = "arch" then { o with Arch := a.value }
  else o

/-- Decode an `os` element into an existing `OS` value. -/
def OS.unmarshalInto (o : Omaha.OS) (x : Xml) : Omaha.OS :=
  x.attrs.foldl OS.applyAttr o

/-- Fold one attribute into a `Ping`. -/
def Ping.applyAttr (p : Omaha.Ping) (a : XmlAttr) : Omaha.Ping :=
  if a.name = "r" then { p with LastReportDays := a.value }
  else if a.name = "status" then { p with Status := a.value }
  else p

/-- Decode a `ping` element into an existing `Ping` value. -/
def Ping.unmarshalInto (p : Omaha.Ping) (x : Xml) : Omaha.Ping :=
  x.attrs.foldl Ping.applyAttr p

/-- Fold one attribute into an `Event`. -/
def Event.applyAttr (e : Omaha.Event) (a : XmlAttr) : Omaha.Event :=
  if a.name = "eventtype" then { e with Type' := a.value }
  else if a.name = "eventresult" then { e with Result := a.value }
  else if a.name = "previousversion" then { e with PreviousVersion := a.value }
  else if a.name = "errorcode" then { e with ErrorCode := a.value }
  else if a.name = "status" then { e with Status := a.value }
  else e

/-- Decode an `event` element from the zero value. -/
def Event.unmarshal (x : Xml) : Omaha.Event :=
  x.attrs.foldl Event.applyAttr {}

/-- Fold one attribute into a `DayStart`. -/
def DayStart.applyAttr (d : Omaha.DayStart) (a : XmlAttr) : Omaha.DayStart :=
  if a.name = "elapsed_seconds" then { d with ElapsedSeconds := a.value } else d

/-- Decode a `daystart` element into an existing `DayStart` value. -/
def DayStart.unmarshalInto (d : Omaha.DayStart) (x : Xml) : Omaha.DayStart :=
  x.attrs.foldl DayStart.applyAttr d

/-- Fold one attribute into a `URL`. -/
def URL.applyAttr (u : Omaha.URL) (a : XmlAttr) : Omaha.URL :=
  if a.name = "codebase" then { u with CodeBase := a.value } else u

/-- Decode a `url` element from the zero value. -/
def URL.unmarshal (x : Xml) : Omaha.URL :=
  x.attrs.foldl URL.applyAttr {}

/-- Decode a `urls` element into an existing wrapper: every child named
`url` appends to the list. -/
def URLs.unmarshalInto (w : Omaha.URLs) (x : Xml) : Omaha.URLs :=
  { w with URLs := w.URLs ++ (x.children.filter (fun c => c.name = "url")).map URL.unmarshal }

/-- Fold one attribute into a `Package`; `size` and `required` must parse. -/
def Package.applyAttr (p : Omaha.Package) (a : XmlAttr) : Except String Omaha.Package :=
  if a.name = "hash" then .ok { p with Hash := a.value }
  else if a.name = "name" then .ok { p with Name := a.value }
  else if a.name = "size" then
    match parseUint a.value with
    | some n => .ok { p with Size := n }
    | none => .error "invalid size"
  else if a.name = "required" then
    match parseBool a.value with
    | some b => .ok { p with Required := b }
    | none => .error "invalid required"
  else .ok p

/-- Decode a `package` element from the zero value. -/
def Package.unmarshal (x : Xml) : Except String Omaha.Package :=
  x.attrs.foldlM Package.applyAttr {}

/-- Fold one attribute into an `Action`; the three bool attributes must parse. -/
def Action.applyAttr (ac : Omaha.Action) (a : XmlAttr) : Except String Omaha.Action :=
  if a.name = "event" then .ok { ac with Event := a.value }
  else if a.name = "ChromeOSVersion" then .ok { ac with ChromeOSVersion := a.value }
  else if a.name = "sha256" then .ok { ac with Sha256 := a.value }
  else if a.name = "needsadmin" then
    match parseBool a.value with
    | some b => .ok { ac with NeedsAdmin := b }
    | none => .error "invalid needsadmin"
  else if a.name = "IsDelta" then
    match parseBool a.value with
    | some b => .ok { ac with IsDelta := b }
    | none => .error "invalid IsDelta"
  else if a.name = "DisablePayloadBackoff" then
    match parseBool a.value with
    | some b => .ok { ac with DisablePayloadBackoff := b }
    | none => .error "invalid DisablePayloadBackoff"
  else if a.name = "MetadataSignatureRsa" then .ok { ac with MetadataSignatureRsa := a.value }
  else if a.name = "MetadataSize" then .ok { ac with MetadataSize := a.value }
  else if a.name = "deadline" then .ok { ac with Deadline := a.value }
  else .ok ac

/-- Decode an `action` element from the zero value. -/
def Action.unmarshal (x : Xml) : Except String Omaha.Action :=
  x.attrs.foldlM Action.applyAttr {}

/-- Fold one attribute into a `Manifest`. -/
def Manifest.applyAttr (m : Omaha.Manifest) (a : XmlAttr) : Omaha.Manifest :=
  if a.name = "version" then { m with Version := a.value } else m

/-- Dispatch one child element of a `manifest`: the `packages>package` and
`actions>action` paths descend one grouping level and append each match. -/
def Manifest.applyChild (m : Omaha.Manifest) (x : Xml) : Except String Omaha.Manifest :=
  if x.name = "packages" then do
    let ps ← (x.children.filter (fun c => c.name = "package")).mapM Package.unmarshal
    .ok { m with Packages := m.Packages ++ ps }
  else if x.name = "actions" then do
    let as' ← (x.children.filter (fun c => c.name = "action")).mapM Action.unmarshal
    .ok { m with Actions := m.Actions ++ as' }
  else .ok m

/-- Decode a `manifest` element into an existing `Manifest` value. -/
def Manifest.unmarshalInto (m : Omaha.Manifest) (x : Xml) : Except String Omaha.Manifest :=
  x.children.foldlM Manifest.applyChild (x.attrs.foldl Manifest.applyAttr m)

/-- Fold one attribute into an `UpdateCheck`. -/
def UpdateCheck.applyAttr (u : Omaha.UpdateCheck) (a : XmlAttr) : Omaha.UpdateCheck :=
  if a.name = "targetversionprefix" then { u with TargetVersionPrefix := a.value }
  else if a.name = "status" then { u with Status := a.value }
  else u

/-- Dispatch one child element of an `updatecheck`: the pointer fields are
allocated on first use and re-used afterwards. -/
def UpdateCheck.applyChild (u : Omaha.UpdateCheck) (x : Xml) :
    Except String Omaha.UpdateCheck :=
  if x.name = "urls" then
    .ok { u with URLs := some (URLs.unmarshalInto (u.URLs.getD {}) x) }
  else if x.name = "manifest" then do
    let m ← Manifest.unmarshalInto (u.Manifest.getD {}) x
    .ok { u with Manifest := some m }
  else .ok u

/-- Decode an `updatecheck` element into an existing `UpdateCheck` value. -/
def UpdateCheck.unmarshalInto (u : Omaha.UpdateCheck) (x : Xml) :
    Except String Omaha.UpdateCheck :=
  x.children.foldlM UpdateCheck.applyChild (x.attrs.foldl UpdateCheck.applyAttr u)

/-- Decode an `updatecheck` element from the zero value. -/
def UpdateCheck.unmarshal (x : Xml) : Except String Omaha.UpdateCheck :=
  UpdateCheck.unmarshalInto {} x

/-- Fold one attribute into an `App`. -/
def App.applyAttr (ap : App) (a : XmlAttr) : App :=
  if a.name = "appid" then { ap with Id := a.value }
  else if a.name = "version" then { ap with Version := a.value }
  else if a.name = "nextversion" then { ap with NextVersion := a.value }
  else if a.name = "lang" then { ap with Lang := a.value }
  else if a.name = "client" then { ap with Client := a.value }
  else if a.name = "installage" then { ap with InstallAge := a.value }
  else if a.name = "status" then { ap with Status := a.value }
  else if a.name = "track" then { ap with Track := a.value }
  else if a.name = "from_track" then { ap with FromTrack := a.value }
  else if a.name = "bootid" then { ap with BootId := a.value }
  else if a.name = "machineid" then { ap with MachineID := a.value }
  else if a.name = "oem" then { ap with OEM := a.value }
  else ap

/-- Dispatch one child element of an `app`. -/
def App.applyChild (ap : App) (x : Xml) : Except String App :=
  if x.name = "ping" then
    .ok { ap with Ping := some (Ping.unmarshalInto (ap.Ping.getD {}) x) }
  else if x.name = "updatecheck" then do
    let u ← UpdateCheck.unmarshalInto (ap.UpdateCheck.getD {}) x
    .ok { ap with UpdateCheck := some u }
  else if x.name = "event" then
    .ok { ap with Events := ap.Events ++ [Event.unmarshal x] }
  else .ok ap

/-- Decode an `app` element from the zero value. -/
def App.unmarshal (x : Xml) : Except String App :=
  x.children.foldlM App.applyChild (x.attrs.foldl App.applyAttr {})

/-- Fold one attribute into a `Request`. -/
def Request.applyAttr (r : Request) (a : XmlAttr) : Request :=
  if a.name = "protocol" then { r with Protocol := a.value }
  else if a.name = "version" then { r with Version := a.value }
  else if a.name = "ismachine" then { r with IsMachine := a.value }
  else if a.name = "sessionid" then { r with SessionId := a.value }
  else if a.name = "userid" then { r with UserId := a.value }
  else if a.name = "installsource" then { r with InstallSource := a.value }
  else if a.name = "testsource" then { r with TestSource := a.value }
  else if a.name = "requestid" then { r with RequestId := a.value }
  else if a.name = "updaterversion" then { r with UpdaterVersion := a.value }
  else r

/-- Dispatch one child element of a `request`. -/
def Request.applyChild (r : Request) (x : Xml) : Except String Request :=
  if x.name = "os" then
    .ok { r with OS := some (OS.unmarshalInto (r.OS.getD {}) x) }
  else if x.name = "app" then do
    let ap ← App.unmarshal x
    .ok { r with Apps := r.Apps ++ [ap] }
  else .ok r

/-- Decode a whole document into a `Request`: the root element must be
named `request` (the `XMLName` check), else decoding fails. -/
def Request.unmarshal (x : Xml) : Except String Request :=
  if x.name = "request" then
    x.children.foldlM Request.applyChild (x.attrs.foldl Request.applyAttr {})
  else
    .error ("expected element type <request> but have <" ++ x.name ++ ">")

/-- Fold one attribute into a `Response`. -/
def Response.applyAttr (r : Response) (a : XmlAttr) : Response :=
  if a.name = "protocol" then { r with Protocol := a.value }
  else if a.name = "server" then { r with Server := a.value }
  else r

/-- Dispatch one child element of a `response`; `daystart` is a value
field, decoded into the current value. -/
def Response.applyChild (r : Response) (x : Xml) : Except String Response :=
  if x.name = "daystart" then
    .ok { r with DayStart := DayStart.unmarshalInto r.DayStart x }
  else if x.name = "app" then do
    let ap ← App.unmarshal x
    .ok { r with Apps := r.Apps ++ [ap] }
  else .ok r

/-- Decode a whole document into a `Response`: the root element must be
named `response`, else decoding fails. -/
def Response.unmarshal (x : Xml) : Except String Response :=
  if x.name = "response" then
    x.children.foldlM Response.applyChild (x.attrs.foldl Response.applyAttr {})
  else
    .error ("expected element type <response> but have <" ++ x.name ++ ">")

/-! ## Builder-call sequences and the size bound.

A builder call is addressed by the position of the app it targets; the
sub-entity it mutates is the one currently attached there (a call whose
target does not exist leaves the tree unchanged — in Go such a call
mutates a detached value invisible to the tree, so the trees reachable
here include all trees Go's builders can produce). -/

/-- One builder call on an `App` list or its subtrees. -/
inductive BuildOp where
  | addApp (s t : String)
  | addPing (i : Nat)
  | addEvent (i : Nat)
  | addUpdateCheck (i : Nat)
  | addURL (i : Nat) (codebase : String)
  | addManifest (i : Nat) (version : String)
  | addPackage (i : Nat)
  | addAction (i : Nat) (event : String)
  deriving Repr

/-- Update the element at a position, if it exists. -/
def listModify {α : Type} (f : α → α) : Nat → List α → List α
  | _, [] => []
  | 0, a :: l => f a :: l
  | n + 1, a :: l => a :: listModify f n l

/-- Apply one app-targeted builder call to an app list. -/
def applyOpApps (l : List App) : BuildOp → List App
  | .addApp _ _ => l
  | .addPing i => listModify App.AddPing i l
  | .addEvent i => listModify App.AddEvent i l
  | .addUpdateCheck i => listModify (fun a => (App.AddUpdateCheck a).1) i l
  | .addURL i cb =>
      listModify (fun a => { a with UpdateCheck := a.UpdateCheck.map (UpdateCheck.AddURL · cb) }) i l
  | .addManifest i v =>
      listModify (fun a => { a with UpdateCheck := a.UpdateCheck.map (UpdateCheck.AddManifest · v) }) i l
  | .addPackage i =>
      listModify (fun a =>
        { a with UpdateCheck := a.UpdateCheck.map (fun u =>
            { u with Manifest := u.Manifest.map Manifest.AddPackage }) }) i l
  | .addAction i ev =>
      listModify (fun a =>
        { a with UpdateCheck := a.UpdateCheck.map (fun u =>
            { u with Manifest := u.Manifest.map (Manifest.AddAction · ev) }) }) i l

/-- Apply one builder call to a `Request`. -/
def Request.applyOp (r : Request) (op : BuildOp) : Request :=
  match op with
  | .addApp id v => (r.AddApp id v).1
  | _ => { r with Apps := applyOpApps r.Apps op }

/-- Apply one builder call to a `Response`. -/
def Response.applyOp (r : Response) (op : BuildOp) : Response :=
  match op with
  | .addApp id st => (r.AddApp id st).1
  | _ => { r with Apps := applyOpApps r.Apps op }

/-- The request built from `NewRequest` by a sequence of builder calls. -/
def Request.build (ops : List BuildOp) : Request :=
  ops.foldl Request.applyOp NewRequest

/-- The response built from `NewResponse` by a sequence of builder calls. -/
def Response.build (ops : List BuildOp) : Response :=
  ops.foldl Response.applyOp NewResponse

/-- Every package size fits Go's `uint64`. -/
def Manifest.sizesOK (m : Omaha.Manifest) : Bool :=
  m.Packages.all (fun p => decide (p.Size < 2 ^ 64))

/-- Every package size in the subtree fits Go's `uint64`. -/
def UpdateCheck.sizesOK (u : Omaha.UpdateCheck) : Bool :=
  match u.Manifest with
  | none => true
  | some m => m.sizesOK

/-- Every package size in the subtree fits Go's `uint64`. -/
def App.sizesOK (a : App) : Bool :=
  match a.UpdateCheck with
  | none => true
  | some u => u.sizesOK

/-- Every package size in the tree fits Go's `uint64`. -/
def Request.sizesOK (r : Request) : Bool :=
  r.Apps.all App.sizesOK

/-- Every package size in the tree fits Go's `uint64`. -/
def Response.sizesOK (r : Response) : Bool :=
  r.Apps.all App.sizesOK

/-- A `URLs` wrapper, when present, holds at least one entry. -/
def UpdateCheck.urlsOK (u : Omaha.UpdateCheck) : Bool :=
  match u.URLs with
  | none => true
  | some w => !w.URLs.isEmpty

/-- The app's `URLs` wrapper, when present, holds at least one entry. -/
def App.urlsOK (a : App) : Bool :=
  match a.UpdateCheck with
  | none => true
  | some u => u.urlsOK

/-- Every `URLs` wrapper in the tree holds at least one entry. -/
def Request.urlsOK (r : Request) : Bool :=
  r.Apps.all App.urlsOK

/-- Every `URLs` wrapper in the tree holds at least one entry. -/
def Response.urlsOK (r : Response) : Bool :=
  r.Apps.all App.urlsOK

/-! ## Wire-encoding round-trips for the scalar codecs. -/

theorem parseBool_boolString (b : Bool) : parseBool (boolString b) = some b := by
  cases b <;> rfl

theorem digitChar_isDigit (d : Nat) (h : d < 10) : (Nat.digitChar d).isDigit = true := by
  interval_cases d <;> rfl

theorem digitChar_toNat (d : Nat) (h : d < 10) : (Nat.digitChar d).toNat - 48 = d := by
  interval_cases d <;> rfl

theorem foldr_ofDigits (L : List Nat) :
    L.foldr (fun d a => a * 10 + d) 0 = Nat.ofDigits 10 L := by
  induction L with
  | nil => rfl
  | cons d L ih => simp only [List.foldr_cons, ih, Nat.ofDigits_cons]; omega

theorem parseUint_uintToString (n : Nat) (h : n < 2 ^ 64) :
    parseUint (uintToString n) = some n := by
  by_cases h0 : n = 0
  · subst h0; rfl
  · have hd : ∀ d ∈ Nat.digits 10 n, d < 10 := fun d hdm =>
      Nat.digits_lt_base (by norm_num) hdm
    have hdata : (uintToString n).data = ((Nat.digits 10 n).map Nat.digitChar).reverse := by
      simp [uintToString, h0]
    have hne : (uintToString n).data ≠ [] := by
      simp only [hdata, ne_eq, List.reverse_eq_nil_iff, List.map_eq_nil_iff]
      exact Nat.digits_ne_nil_iff_ne_zero.mpr h0
    have hall : (uintToString n).data.all Char.isDigit = true := by
      rw [hdata, List.all_eq_true]
      intro c hc
      rw [List.mem_reverse, List.mem_map] at hc
      obtain ⟨d, hdm, rfl⟩ := hc
      exact digitChar_isDigit d (hd d hdm)
    have hfold : (uintToString n).data.foldl (fun a c => a * 10 + (c.toNat - 48)) 0 = n := by
      rw [hdata, ← List.map_reverse, List.foldl_map]
      rw [List.foldl_ext (fun a d => a * 10 + ((Nat.digitChar d).toNat - 48))
        (fun a d => a * 10 + d) 0 ?hH]
      · rw [List.foldl_reverse, foldr_ofDigits, Nat.ofDigits_digits]
      · intro a d hdm
        rw [List.mem_reverse] at hdm
        have := digitChar_toNat d (hd d hdm)
        show a * 10 + ((Nat.digitChar d).toNat - 48) = a * 10 + d
        omega
    unfold parseUint
    rw [if_neg hne, if_pos hall, hfold, if_pos h]

/-! ## Fold lemmas for `omitempty` attribute runs. -/

theorem ok_bind {ε α β : Type} (a : α) (f : α → Except ε β) :
    (Except.ok a >>= f) = f a := rfl

theorem pure_eq_ok {ε α : Type} (a : α) : (pure a : Except ε α) = .ok a := rfl

theorem foldl_omit_step {σ : Type} (f : σ → XmlAttr → σ) (s : σ) (n v : String)
    (rest : List XmlAttr) (h : f s ⟨n, ""⟩ = s) :
    List.foldl f s (attrOmit n v ++ rest) = List.foldl f (f s ⟨n, v⟩) rest := by
  by_cases hv : v = ""
  · subst hv; simp [attrOmit, h]
  · simp [attrOmit, hv]

theorem foldl_omit_last {σ : Type} (f : σ → XmlAttr → σ) (s : σ) (n v : String)
    (h : f s ⟨n, ""⟩ = s) :
    List.foldl f s (attrOmit n v) = f s ⟨n, v⟩ := by
  by_cases hv : v = ""
  · subst hv; simp [attrOmit, h]
  · simp [attrOmit, hv]

theorem foldlM_omit_step {σ : Type} (f : σ → XmlAttr → Except String σ) (s t : σ)
    (n v : String) (rest : List XmlAttr) (h : f s ⟨n, v⟩ = .ok t) (h0 : v = "" → t = s) :
    List.foldlM f s (attrOmit n v ++ rest) = List.foldlM f t rest := by
  by_cases hv : v = ""
  · rw [h0 hv, hv]; simp [attrOmit]
  · simp [attrOmit, hv, h, ok_bind]

theorem foldlM_omit_last {σ : Type} (f : σ → XmlAttr → Except String σ) (s t : σ)
    (n v : String) (h : f s ⟨n, v⟩ = .ok t) (h0 : v = "" → t = s) :
    List.foldlM f s (attrOmit n v) = .ok t := by
  by_cases hv : v = ""
  · rw [h0 hv, hv]; simp [attrOmit, pure_eq_ok]
  · simp [attrOmit, hv, h, ok_bind]

theorem foldlM_boolOmit_step {σ : Type} (f : σ → XmlAttr → Except String σ) (s t : σ)
    (n : String) (b : Bool) (rest : List XmlAttr) (h : f s ⟨n, boolString b⟩ = .ok t)
    (h0 : b = false → t = s) :
    List.foldlM f s (attrBoolOmit n b ++ rest) = List.foldlM f t rest := by
  cases b
  · rw [h0 rfl]; simp [attrBoolOmit]
  · simp [attrBoolOmit, h, ok_bind]

/-! ## Per-entity round-trips: decoding what was encoded restores the value. -/

theorem os_roundtrip (o : Omaha.OS) : OS.unmarshalInto {} (OS.marshal o) = o := by
  unfold OS.unmarshalInto OS.marshal
  simp only [Xml.attrs, List.append_assoc]
  rw [foldl_omit_step, foldl_omit_step, foldl_omit_step, foldl_omit_last] <;>
    simp [OS.applyAttr]

theorem ping_roundtrip (p : Omaha.Ping) : Ping.unmarshalInto {} (Ping.marshal p) = p := by
  unfold Ping.unmarshalInto Ping.marshal
  simp only [Xml.attrs, List.append_assoc]
  rw [foldl_omit_step, foldl_omit_last] <;> simp [Ping.applyAttr]

theorem event_roundtrip (e : Omaha.Event) : Event.unmarshal (Event.marshal e) = e := by
  unfold Event.unmarshal Event.marshal
  simp only [Xml.attrs, List.append_assoc, List.cons_append, List.nil_append, List.foldl_cons]
  rw [foldl_omit_step, foldl_omit_step, foldl_omit_last] <;> simp [Event.applyAttr]

theorem dayStart_roundtrip (d0 d : Omaha.DayStart) :
    DayStart.unmarshalInto d0 (DayStart.marshal d) = d := by
  simp [DayStart.unmarshalInto, DayStart.marshal, DayStart.applyAttr, Xml.attrs]

theorem url_roundtrip (u : Omaha.URL) : URL.unmarshal (URL.marshal u) = u := by
  simp [URL.unmarshal, URL.marshal, URL.applyAttr, Xml.attrs]

theorem urlList_roundtrip (l : List Omaha.URL) :
    ((l.map URL.marshal).filter (fun c => c.name = "url")).map URL.unmarshal = l := by
  induction l with
  | nil => rfl
  | cons u l ih =>
    simp only [List.map_cons, List.filter_cons]
    rw [if_pos (by simp [URL.marshal, Xml.name])]
    simp only [List.map_cons, ih, url_roundtrip]

theorem urls_roundtrip (s w : Omaha.URLs) :
    URLs.unmarshalInto s (URLs.marshal w) = { s with URLs := s.URLs ++ w.URLs } := by
  unfold URLs.unmarshalInto URLs.marshal
  simp only [Xml.children, urlList_roundtrip]

theorem updateCheck_attr_fold (u : Omaha.UpdateCheck) :
    List.foldl UpdateCheck.applyAttr {} (UpdateCheck.marshal u).attrs =
      { u with URLs := none, Manifest := none } := by
  unfold UpdateCheck.marshal
  simp only [Xml.attrs, List.append_assoc]
  rw [foldl_omit_step, foldl_omit_last] <;> simp [UpdateCheck.applyAttr]

theorem app_attr_fold (a : App) :
    List.foldl App.applyAttr {} (App.marshal a).attrs =
      { a with Ping := none, UpdateCheck := none, Events := [] } := by
  unfold App.marshal
  simp only [Xml.attrs, List.append_assoc]
  rw [foldl_omit_step, foldl_omit_step, foldl_omit_step, foldl_omit_step, foldl_omit_step,
    foldl_omit_step, foldl_omit_step, foldl_omit_step, foldl_omit_step, foldl_omit_step,
    foldl_omit_step, foldl_omit_last] <;> simp [App.applyAttr]

theorem request_attr_fold (r : Request) :
    List.foldl Request.applyAttr {} (Request.marshal r).attrs =
      { r with OS := none, Apps := [] } := by
  unfold Request.marshal
  simp only [Xml.attrs, List.append_assoc, List.cons_append, List.nil_append, List.foldl_cons]
  rw [foldl_omit_step, foldl_omit_step, foldl_omit_step, foldl_omit_step, foldl_omit_step,
    foldl_omit_step, foldl_omit_step, foldl_omit_last] <;> simp [Request.applyAttr]

theorem response_attr_fold (r : Response) :
    List.foldl Response.applyAttr {} (Response.marshal r).attrs =
      { r with DayStart := {}, Apps := [] } := by
  simp [Response.marshal, Xml.attrs, Response.applyAttr]

theorem package_roundtrip (p : Omaha.Package) (h : p.Size < 2 ^ 64) :
    Package.unmarshal (Package.marshal p) = .ok p := by
  unfold Package.unmarshal Package.marshal
  simp [Xml.attrs, Package.applyAttr, parseUint_uintToString p.Size h, parseBool_boolString,
    ok_bind, pure_eq_ok]

theorem action_roundtrip (a : Omaha.Action) :
    Action.unmarshal (Action.marshal a) = .ok a := by
  obtain ⟨f1, f2, f3, f4, f5, f6, f7, f8, f9⟩ := a
  unfold Action.unmarshal Action.marshal
  by_cases h1 : f6 <;> by_cases h2 : f7 = "" <;> by_cases h3 : f8 = "" <;>
    by_cases h4 : f9 = "" <;>
    simp_all [Xml.attrs, Action.applyAttr, attrBoolOmit, attrOmit, parseBool_boolString,
      ok_bind, pure_eq_ok]

theorem packageFilter_id (l : List Omaha.Package) :
    (l.map Package.marshal).filter (fun c => c.name = "package") = l.map Package.marshal := by
  induction l with
  | nil => rfl
  | cons p l ih =>
    simp only [List.map_cons, List.filter_cons]
    rw [if_pos (show decide ((Package.marshal p).name = "package") = true from rfl), ih]

theorem actionFilter_id (l : List Omaha.Action) :
    (l.map Action.marshal).filter (fun c => c.name = "action") = l.map Action.marshal := by
  induction l with
  | nil => rfl
  | cons a l ih =>
    simp only [List.map_cons, List.filter_cons]
    rw [if_pos (show decide ((Action.marshal a).name = "action") = true from rfl), ih]

theorem packageMapM_roundtrip (l : List Omaha.Package) (h : ∀ p ∈ l, p.Size < 2 ^ 64) :
    (l.map Package.marshal).mapM Package.unmarshal = .ok l := by
  induction l with
  | nil => rfl
  | cons p l ih =>
    rw [List.map_cons, List.mapM_cons,
      package_roundtrip p (h p (List.mem_cons_self p l)), ok_bind,
      ih (fun q hq => h q (List.mem_cons_of_mem p hq))]
    rfl

theorem actionMapM_roundtrip (l : List Omaha.Action) :
    (l.map Action.marshal).mapM Action.unmarshal = .ok l := by
  induction l with
  | nil => rfl
  | cons a l ih =>
    rw [List.map_cons, List.mapM_cons, action_roundtrip a, ok_bind, ih]
    rfl

theorem manifest_roundtrip (m : Omaha.Manifest) (h : Manifest.sizesOK m = true) :
    Manifest.unmarshalInto {} (Manifest.marshal m) = .ok m := by
  have hsz : ∀ p ∈ m.Packages, p.Size < 2 ^ 64 := by
    intro p hp
    have := List.all_eq_true.mp h p hp
    simpa using this
  unfold Manifest.unmarshalInto Manifest.marshal
  simp only [Xml.attrs, Xml.children, List.foldl_cons, List.foldl_nil, List.foldlM_cons,
    List.foldlM_nil]
  have h1 : Manifest.applyAttr {} ⟨"version", m.Version⟩ =
      { Packages := [], Actions := [], Version := m.Version } := by
    simp [Manifest.applyAttr]
  have h2 : Manifest.applyChild { Packages := [], Actions := [], Version := m.Version }
      (Xml.elem "packages" [] (m.Packages.map Package.marshal)) =
      .ok { Packages := m.Packages, Actions := [], Version := m.Version } := by
    unfold Manifest.applyChild
    rw [if_pos (show (Xml.elem "packages" [] (m.Packages.map Package.marshal)).name
      = "packages" from rfl)]
    rw [show (Xml.elem "packages" [] (m.Packages.map Package.marshal)).children
      = m.Packages.map Package.marshal from rfl]
    rw [packageFilter_id, packageMapM_roundtrip m.Packages hsz, ok_bind]
    rfl
  have h3 : Manifest.applyChild { Packages := m.Packages, Actions := [], Version := m.Version }
      (Xml.elem "actions" [] (m.Actions.map Action.marshal)) =
      .ok { Packages := m.Packages, Actions := m.Actions, Version := m.Version } := by
    unfold Manifest.applyChild
    rw [if_neg (show ¬ (Xml.elem "actions" [] (m.Actions.map Action.marshal)).name
      = "packages" by simp [Xml.name])]
    rw [if_pos (show (Xml.elem "actions" [] (m.Actions.map Action.marshal)).name
      = "actions" from rfl)]
    rw [show (Xml.elem "actions" [] (m.Actions.map Action.marshal)).children
      = m.Actions.map Action.marshal from rfl]
    rw [actionFilter_id, actionMapM_roundtrip m.Actions, ok_bind]
    rfl
  rw [h1, h2, ok_bind, h3, ok_bind]
  rfl

theorem updateCheck_roundtrip (u : Omaha.UpdateCheck)
    (h : UpdateCheck.sizesOK u = true) :
    UpdateCheck.unmarshalInto {} (UpdateCheck.marshal u) = .ok u := by
  unfold UpdateCheck.unmarshalInto
  rw [updateCheck_attr_fold]
  obtain ⟨ur, mf, tvp, st⟩ := u
  have hch : (UpdateCheck.marshal ⟨ur, mf, tvp, st⟩).children =
      optChild ur Omaha.URLs.marshal ++ optChild mf Omaha.Manifest.marshal := rfl
  rw [hch]
  have hu : ∀ s : Omaha.UpdateCheck, s.URLs = none → ∀ w,
      UpdateCheck.applyChild s (Omaha.URLs.marshal w) = .ok { s with URLs := some w } := by
    intro s hs w
    unfold UpdateCheck.applyChild
    rw [if_pos (show (Omaha.URLs.marshal w).name = "urls" by simp [URLs.marshal, Xml.name])]
    rw [hs]
    rw [show (Option.getD (none : Option Omaha.URLs) {}) = {} from rfl]
    rw [urls_roundtrip]
    simp
  have hm : ∀ s : Omaha.UpdateCheck, s.Manifest = none → ∀ w : Omaha.Manifest,
      w.sizesOK = true →
      UpdateCheck.applyChild s (Omaha.Manifest.marshal w) = .ok { s with Manifest := some w } := by
    intro s hs w hw
    unfold UpdateCheck.applyChild
    rw [if_neg (show ¬ (Omaha.Manifest.marshal w).name = "urls" by
      simp [Manifest.marshal, Xml.name])]
    rw [if_pos (show (Omaha.Manifest.marshal w).name = "manifest" by
      simp [Manifest.marshal, Xml.name])]
    rw [hs]
    rw [show (Option.getD (none : Option Omaha.Manifest) {}) = {} from rfl]
    rw [manifest_roundtrip w hw, ok_bind]
  cases ur with
  | none =>
    cases mf with
    | none => simp [optChild, pure_eq_ok]
    | some w =>
      have hw : w.sizesOK = true := by simpa [UpdateCheck.sizesOK] using h
      simp only [optChild, List.nil_append, List.foldlM_cons, List.foldlM_nil]
      rw [hm _ rfl w hw, ok_bind]
      rfl
  | some uw =>
    cases mf with
    | none =>
      simp only [optChild, List.append_nil, List.foldlM_cons, List.foldlM_nil]
      rw [hu _ rfl uw, ok_bind]
      rfl
    | some w =>
      have hw : w.sizesOK = true := by simpa [UpdateCheck.sizesOK] using h
      simp only [optChild, List.cons_append, List.nil_append, List.foldlM_cons, List.foldlM_nil]
      rw [hu _ rfl uw, ok_bind, hm _ rfl w hw, ok_bind]
      rfl

theorem app_events_fold (l : List Omaha.Event) (s : App) :
    List.foldlM App.applyChild s (l.map Event.marshal) =
      .ok { s with Events := s.Events ++ l } := by
  induction l generalizing s with
  | nil => simp [pure_eq_ok]
  | cons e l ih =>
    rw [List.map_cons, List.foldlM_cons]
    have h1 : App.applyChild s (Event.marshal e) = .ok { s with Events := s.Events ++ [e] } := by
      unfold App.applyChild
      rw [if_neg (show ¬ (Event.marshal e).name = "ping" by simp [Event.marshal, Xml.name])]
      rw [if_neg (show ¬ (Event.marshal e).name = "updatecheck" by
        simp [Event.marshal, Xml.name])]
      rw [if_pos (show (Event.marshal e).name = "event" by simp [Event.marshal, Xml.name])]
      rw [event_roundtrip]
    rw [h1, ok_bind, ih]
    simp

theorem app_roundtrip (a : App) (h : App.sizesOK a = true) :
    App.unmarshal (App.marshal a) = .ok a := by
  unfold App.unmarshal
  rw [app_attr_fold]
  obtain ⟨pg, uc, evs, x1, x2, x3, x4, x5, x6, x7, x8, x9, x10, x11, x12⟩ := a
  have hch : (App.marshal ⟨pg, uc, evs, x1, x2, x3, x4, x5, x6, x7, x8, x9, x10, x11, x12⟩).children
      = optChild pg Omaha.Ping.marshal ++ optChild uc Omaha.UpdateCheck.marshal ++
        evs.map Event.marshal := rfl
  rw [hch]
  have hp : ∀ s : App, s.Ping = none → ∀ w,
      App.applyChild s (Omaha.Ping.marshal w) = .ok { s with Ping := some w } := by
    intro s hs w
    unfold App.applyChild
    rw [if_pos (show (Omaha.Ping.marshal w).name = "ping" by simp [Ping.marshal, Xml.name])]
    rw [hs]
    rw [show (Option.getD (none : Option Omaha.Ping) {}) = {} from rfl]
    rw [ping_roundtrip]
  have hc : ∀ s : App, s.UpdateCheck = none → ∀ w : Omaha.UpdateCheck, w.sizesOK = true →
      App.applyChild s (Omaha.UpdateCheck.marshal w) = .ok { s with UpdateCheck := some w } := by
    intro s hs w hw
    unfold App.applyChild
    rw [if_neg (show ¬ (Omaha.UpdateCheck.marshal w).name = "ping" by
      simp [UpdateCheck.marshal, Xml.name])]
    rw [if_pos (show (Omaha.UpdateCheck.marshal w).name = "updatecheck" by
      simp [UpdateCheck.marshal, Xml.name])]
    rw [hs]
    rw [show (Option.getD (none : Option Omaha.UpdateCheck) {}) = {} from rfl]
    rw [updateCheck_roundtrip w hw, ok_bind]
  cases pg with
  | none =>
    cases uc with
    | none =>
      simp only [optChild, List.nil_append]
      rw [app_events_fold]
      rfl
    | some w =>
      have hw : w.sizesOK = true := by simpa [App.sizesOK] using h
      simp only [optChild, List.nil_append, List.cons_append, List.foldlM_cons]
      rw [hc _ rfl w hw, ok_bind, app_events_fold]
      rfl
  | some pw =>
    cases uc with
    | none =>
      simp only [optChild, List.append_nil, List.nil_append, List.cons_append, List.foldlM_cons]
      rw [hp _ rfl pw, ok_bind, app_events_fold]
      rfl
    | some w =>
      have hw : w.sizesOK = true := by simpa [App.sizesOK] using h
      simp only [optChild, List.cons_append, List.nil_append, List.foldlM_cons]
      rw [hp _ rfl pw, ok_bind, hc _ rfl w hw, ok_bind, app_events_fold]
      rfl

theorem request_apps_fold (l : List App) (s : Request) (h : l.all App.sizesOK = true) :
    List.foldlM Request.applyChild s (l.map App.marshal) =
      .ok { s with Apps := s.Apps ++ l } := by
  induction l generalizing s with
  | nil => simp [pure_eq_ok]
  | cons ap l ih =>
    rw [List.all_cons, Bool.and_eq_true] at h
    rw [List.map_cons, List.foldlM_cons]
    have h1 : Request.applyChild s (App.marshal ap) = .ok { s with Apps := s.Apps ++ [ap] } := by
      unfold Request.applyChild
      rw [if_neg (show ¬ (App.marshal ap).name = "os" by simp [App.marshal, Xml.name])]
      rw [if_pos (show (App.marshal ap).name = "app" by simp [App.marshal, Xml.name])]
      rw [app_roundtrip ap h.1, ok_bind]
    rw [h1, ok_bind, ih _ h.2]
    simp

theorem response_apps_fold (l : List App) (s : Response) (h : l.all App.sizesOK = true) :
    List.foldlM Response.applyChild s (l.map App.marshal) =
      .ok { s with Apps := s.Apps ++ l } := by
  induction l generalizing s with
  | nil => simp [pure_eq_ok]
  | cons ap l ih =>
    rw [List.all_cons, Bool.and_eq_true] at h
    rw [List.map_cons, List.foldlM_cons]
    have h1 : Response.applyChild s (App.marshal ap) = .ok { s with Apps := s.Apps ++ [ap] } := by
      unfold Response.applyChild
      rw [if_neg (show ¬ (App.marshal ap).name = "daystart" by simp [App.marshal, Xml.name])]
      rw [if_pos (show (App.marshal ap).name = "app" by simp [App.marshal, Xml.name])]
      rw [app_roundtrip ap h.1, ok_bind]
    rw [h1, ok_bind, ih _ h.2]
    simp

theorem request_roundtrip (r : Request) (h : Request.sizesOK r = true) :
    Request.unmarshal (Request.marshal r) = .ok r := by
  unfold Request.unmarshal
  rw [if_pos (show (Request.marshal r).name = "request" from rfl)]
  rw [request_attr_fold]
  obtain ⟨os, apps, y1, y2, y3, y4, y5, y6, y7, y8, y9⟩ := r
  have hch : (Request.marshal ⟨os, apps, y1, y2, y3, y4, y5, y6, y7, y8, y9⟩).children =
      optChild os Omaha.OS.marshal ++ apps.map App.marshal := rfl
  rw [hch]
  cases os with
  | none =>
    simp only [optChild, List.nil_append]
    rw [request_apps_fold _ _ h]
    rfl
  | some o =>
    simp only [optChild, List.cons_append, List.nil_append, List.foldlM_cons]
    have h1 : ∀ s : Request, s.OS = none →
        Request.applyChild s (Omaha.OS.marshal o) = .ok { s with OS := some o } := by
      intro s hs
      unfold Request.applyChild
      rw [if_pos (show (Omaha.OS.marshal o).name = "os" by simp [OS.marshal, Xml.name])]
      rw [hs]
      rw [show (Option.getD (none : Option Omaha.OS) {}) = {} from rfl]
      rw [os_roundtrip]
    rw [h1 _ rfl, ok_bind, request_apps_fold _ _ h]
    rfl

theorem response_roundtrip (r : Response) (h : Response.sizesOK r = true) :
    Response.unmarshal (Response.marshal r) = .ok r := by
  unfold Response.unmarshal
  rw [if_pos (show (Response.marshal r).name = "response" from rfl)]
  rw [response_attr_fold]
  have hch : (Response.marshal r).children =
      DayStart.marshal r.DayStart :: r.Apps.map App.marshal := rfl
  rw [hch, List.foldlM_cons]
  have h1 : Response.applyChild { r with DayStart := {}, Apps := [] }
      (DayStart.marshal r.DayStart) = .ok { r with Apps := [] } := by
    unfold Response.applyChild
    rw [if_pos (show (DayStart.marshal r.DayStart).name = "daystart" by
      simp [DayStart.marshal, Xml.name])]
    rw [dayStart_roundtrip]
  rw [h1, ok_bind, response_apps_fold _ _ h]
  rfl

/-! ## Builder invariants. -/

theorem isEmpty_append_singleton {α : Type} (l : List α) (x : α) :
    (l ++ [x]).isEmpty = false := by
  cases l <;> rfl

theorem listModify_all {α : Type} (p : α → Bool) (f : α → α) (i : Nat) (l : List α)
    (hl : l.all p = true) (hf : ∀ a, p a = true → p (f a) = true) :
    (listModify f i l).all p = true := by
  induction l generalizing i with
  | nil => simp [listModify]
  | cons a l ih =>
    rw [List.all_cons, Bool.and_eq_true] at hl
    cases i with
    | zero => simp only [listModify, List.all_cons, Bool.and_eq_true]
              exact ⟨hf a hl.1, hl.2⟩
    | succ n => simp only [listModify, List.all_cons, Bool.and_eq_true]
                exact ⟨hl.1, ih n hl.2⟩

theorem applyOpApps_urlsOK (l : List App) (op : BuildOp) (h : l.all App.urlsOK = true) :
    (applyOpApps l op).all App.urlsOK = true := by
  cases op with
  | addApp s t => exact h
  | addPing i => exact listModify_all _ _ _ _ h (fun a ha => ha)
  | addEvent i => exact listModify_all _ _ _ _ h (fun a ha => ha)
  | addUpdateCheck i => exact listModify_all _ _ _ _ h (fun a ha => rfl)
  | addURL i cb =>
    refine listModify_all _ _ _ _ h (fun a ha => ?_)
    cases hx : a.UpdateCheck with
    | none => simp [App.urlsOK, hx]
    | some u =>
      simp [App.urlsOK, hx, UpdateCheck.AddURL, UpdateCheck.urlsOK, isEmpty_append_singleton]
  | addManifest i v =>
    refine listModify_all _ _ _ _ h (fun a ha => ?_)
    cases hx : a.UpdateCheck with
    | none => simp [App.urlsOK, hx]
    | some u =>
      simp only [App.urlsOK, hx] at ha
      simpa [App.urlsOK, hx, UpdateCheck.AddManifest, UpdateCheck.urlsOK] using ha
  | addPackage i =>
    refine listModify_all _ _ _ _ h (fun a ha => ?_)
    cases hx : a.UpdateCheck with
    | none => simp [App.urlsOK, hx]
    | some u =>
      simp only [App.urlsOK, hx] at ha
      simpa [App.urlsOK, hx, UpdateCheck.urlsOK] using ha
  | addAction i ev =>
    refine listModify_all _ _ _ _ h (fun a ha => ?_)
    cases hx : a.UpdateCheck with
    | none => simp [App.urlsOK, hx]
    | some u =>
      simp only [App.urlsOK, hx] at ha
      simpa [App.urlsOK, hx, UpdateCheck.urlsOK] using ha

theorem applyOpApps_sizesOK (l : List App) (op : BuildOp) (h : l.all App.sizesOK = true) :
    (applyOpApps l op).all App.sizesOK = true := by
  cases op with
  | addApp s t => exact h
  | addPing i => exact listModify_all _ _ _ _ h (fun a ha => ha)
  | addEvent i => exact listModify_all _ _ _ _ h (fun a ha => ha)
  | addUpdateCheck i => exact listModify_all _ _ _ _ h (fun a ha => rfl)
  | addURL i cb =>
    refine listModify_all _ _ _ _ h (fun a ha => ?_)
    cases hx : a.UpdateCheck with
    | none => simp [App.sizesOK, hx]
    | some u =>
      simp only [App.sizesOK, hx] at ha
      simpa [App.sizesOK, hx, UpdateCheck.AddURL, UpdateCheck.sizesOK] using ha
  | addManifest i v =>
    refine listModify_all _ _ _ _ h (fun a ha => ?_)
    cases hx : a.UpdateCheck with
    | none => simp [App.sizesOK, hx]
    | some u =>
      simp [App.sizesOK, hx, UpdateCheck.AddManifest, UpdateCheck.sizesOK, Manifest.sizesOK]
  | addPackage i =>
    refine listModify_all _ _ _ _ h (fun a ha => ?_)
    cases hx : a.UpdateCheck with
    | none => simp [App.sizesOK, hx]
    | some u =>
      simp only [App.sizesOK, hx] at ha
      cases hm : u.Manifest with
      | none => simp [App.sizesOK, hx, UpdateCheck.sizesOK, hm]
      | some m =>
        simp only [UpdateCheck.sizesOK, hm] at ha
        simp [App.sizesOK, hx, UpdateCheck.sizesOK, hm, Manifest.AddPackage, Manifest.sizesOK,
          List.all_append] at ha ⊢
        exact ha
  | addAction i ev =>
    refine listModify_all _ _ _ _ h (fun a ha => ?_)
    cases hx : a.UpdateCheck with
    | none => simp [App.sizesOK, hx]
    | some u =>
      simp only [App.sizesOK, hx] at ha
      cases hm : u.Manifest with
      | none => simp [App.sizesOK, hx, UpdateCheck.sizesOK, hm]
      | some m =>
        simp only [UpdateCheck.sizesOK, hm] at ha
        simpa [App.sizesOK, hx, UpdateCheck.sizesOK, hm, Manifest.AddAction,
          Manifest.sizesOK] using ha

theorem request_applyOp_urlsOK (r : Request) (op : BuildOp) (h : r.urlsOK = true) :
    (Request.applyOp r op).urlsOK = true := by
  cases op with
  | addApp id v =>
    simp only [Request.applyOp, Request.AddApp, Request.urlsOK, List.all_append,
      Bool.and_eq_true] at h ⊢
    exact ⟨h, by rfl⟩
  | addPing i => exact applyOpApps_urlsOK r.Apps (.addPing i) h
  | addEvent i => exact applyOpApps_urlsOK r.Apps (.addEvent i) h
  | addUpdateCheck i => exact applyOpApps_urlsOK r.Apps (.addUpdateCheck i) h
  | addURL i cb => exact applyOpApps_urlsOK r.Apps (.addURL i cb) h
  | addManifest i v => exact applyOpApps_urlsOK r.Apps (.addManifest i v) h
  | addPackage i => exact applyOpApps_urlsOK r.Apps (.addPackage i) h
  | addAction i ev => exact applyOpApps_urlsOK r.Apps (.addAction i ev) h

theorem response_applyOp_urlsOK (r : Response) (op : BuildOp) (h : r.urlsOK = true) :
    (Response.applyOp r op).urlsOK = true := by
  cases op with
  | addApp id st =>
    simp only [Response.applyOp, Response.AddApp, Response.urlsOK, List.all_append,
      Bool.and_eq_true] at h ⊢
    exact ⟨h, by rfl⟩
  | addPing i => exact applyOpApps_urlsOK r.Apps (.addPing i) h
  | addEvent i => exact applyOpApps_urlsOK r.Apps (.addEvent i) h
  | addUpdateCheck i => exact applyOpApps_urlsOK r.Apps (.addUpdateCheck i) h
  | addURL i cb => exact applyOpApps_urlsOK r.Apps (.addURL i cb) h
  | addManifest i v => exact applyOpApps_urlsOK r.Apps (.addManifest i v) h
  | addPackage i => exact applyOpApps_urlsOK r.Apps (.addPackage i) h
  | addAction i ev => exact applyOpApps_urlsOK r.Apps (.addAction i ev) h

theorem request_applyOp_sizesOK (r : Request) (op : BuildOp) (h : r.sizesOK = true) :
    (Request.applyOp r op).sizesOK = true := by
  cases op with
  | addApp id v =>
    simp only [Request.applyOp, Request.AddApp, Request.sizesOK, List.all_append,
      Bool.and_eq_true] at h ⊢
    exact ⟨h, by rfl⟩
  | addPing i => exact applyOpApps_sizesOK r.Apps (.addPing i) h
  | addEvent i => exact applyOpApps_sizesOK r.Apps (.addEvent i) h
  | addUpdateCheck i => exact applyOpApps_sizesOK r.Apps (.addUpdateCheck i) h
  | addURL i cb => exact applyOpApps_sizesOK r.Apps (.addURL i cb) h
  | addManifest i v => exact applyOpApps_sizesOK r.Apps (.addManifest i v) h
  | addPackage i => exact applyOpApps_sizesOK r.Apps (.addPackage i) h
  | addAction i ev => exact applyOpApps_sizesOK r.Apps (.addAction i ev) h

theorem response_applyOp_sizesOK (r : Response) (op : BuildOp) (h : r.sizesOK = true) :
    (Response.applyOp r op).sizesOK = true := by
  cases op with
  | addApp id st =>
    simp only [Response.applyOp, Response.AddApp, Response.sizesOK, List.all_append,
      Bool.and_eq_true] at h ⊢
    exact ⟨h, by rfl⟩
  | addPing i => exact applyOpApps_sizesOK r.Apps (.addPing i) h
  | addEvent i => exact applyOpApps_sizesOK r.Apps (.addEvent i) h
  | addUpdateCheck i => exact applyOpApps_sizesOK r.Apps (.addUpdateCheck i) h
  | addURL i cb => exact applyOpApps_sizesOK r.Apps (.addURL i cb) h
  | addManifest i v => exact applyOpApps_sizesOK r.Apps (.addManifest i v) h
  | addPackage i => exact applyOpApps_sizesOK r.Apps (.addPackage i) h
  | addAction i ev => exact applyOpApps_sizesOK r.Apps (.addAction i ev) h

theorem request_build_urlsOK (ops : List BuildOp) : (Request.build ops).urlsOK = true := by
  suffices hgen : ∀ (os : List BuildOp) (r : Request), r.urlsOK = true →
      (os.foldl Request.applyOp r).urlsOK = true from hgen ops NewRequest rfl
  intro os
  induction os with
  | nil => exact fun r h => h
  | cons op os ih =>
    intro r h
    exact ih _ (request_applyOp_urlsOK r op h)

theorem response_build_urlsOK (ops : List BuildOp) : (Response.build ops).urlsOK = true := by
  suffices hgen : ∀ (os : List BuildOp) (r : Response), r.urlsOK = true →
      (os.foldl Response.applyOp r).urlsOK = true from hgen ops NewResponse rfl
  intro os
  induction os with
  | nil => exact fun r h => h
  | cons op os ih =>
    intro r h
    exact ih _ (response_applyOp_urlsOK r op h)

theorem request_build_sizesOK (ops : List BuildOp) : (Request.build ops).sizesOK = true := by
  suffices hgen : ∀ (os : List BuildOp) (r : Request), r.sizesOK = true →
      (os.foldl Request.applyOp r).sizesOK = true from hgen ops NewRequest rfl
  intro os
  induction os with
  | nil => exact fun r h => h
  | cons op os ih =>
    intro r h
    exact ih _ (request_applyOp_sizesOK r op h)

theorem response_build_sizesOK (ops : List BuildOp) : (Response.build ops).sizesOK = true := by
  suffices hgen : ∀ (os : List BuildOp) (r : Response), r.sizesOK = true →
      (os.foldl Response.applyOp r).sizesOK = true from hgen ops NewResponse rfl
  intro os
  induction os with
  | nil => exact fun r h => h
  | cons op os ih =>
    intro r h
    exact ih _ (response_applyOp_sizesOK r op h)

/-! ## Attribute and child lookup over the marshalled form. -/

theorem findAttr_append (n : String) (l1 l2 : List XmlAttr) :
    findAttr n (l1 ++ l2) = ((findAttr n l1).orElse fun _ => findAttr n l2) := by
  induction l1 with
  | nil => rfl
  | cons a l ih =>
    by_cases ha : a.name = n <;> simp [findAttr, ha, ih, Option.orElse]

theorem findAttr_attrOmit_self (n v : String) :
    findAttr n (attrOmit n v) = if v = "" then none else some v := by
  by_cases hv : v = "" <;> simp [attrOmit, findAttr, hv]

theorem findAttr_attrOmit_ne (n m v : String) (h : ¬ m = n) :
    findAttr n (attrOmit m v) = none := by
  by_cases hv : v = "" <;> simp [attrOmit, findAttr, hv, h]

theorem findAttr_boolOmit_self (n : String) (b : Bool) :
    findAttr n (attrBoolOmit n b) = if b then some "true" else none := by
  cases b <;> simp [attrBoolOmit, findAttr, boolString]

theorem findAttr_boolOmit_ne (n m : String) (b : Bool) (h : ¬ m = n) :
    findAttr n (attrBoolOmit m b) = none := by
  cases b <;> simp [attrBoolOmit, findAttr, h]

theorem none_orElse_left {α : Type} (f : Unit → Option α) :
    (Option.orElse none f) = f () := rfl

theorem orElse_none_right {α : Type} (x : Option α) :
    (Option.orElse x fun _ => none) = x := by
  cases x <;> rfl

theorem uintToString_isDigit (n : Nat) :
    (uintToString n).data.all Char.isDigit = true := by
  by_cases h0 : n = 0
  · subst h0; rfl
  · have hd : ∀ d ∈ Nat.digits 10 n, d < 10 := fun d hdm =>
      Nat.digits_lt_base (by norm_num) hdm
    have hdata : (uintToString n).data = ((Nat.digits 10 n).map Nat.digitChar).reverse := by
      simp [uintToString, h0]
    rw [hdata, List.all_eq_true]
    intro c hc
    rw [List.mem_reverse, List.mem_map] at hc
    obtain ⟨d, hdm, rfl⟩ := hc
    exact digitChar_isDigit d (hd d hdm)

theorem request_foldl_fields (os : List BuildOp) (r : Request) :
    (os.foldl Request.applyOp r).Protocol = r.Protocol ∧
      (os.foldl Request.applyOp r).Version = r.Version := by
  induction os generalizing r with
  | nil => exact ⟨rfl, rfl⟩
  | cons op os ih =>
    rw [List.foldl_cons]
    refine ⟨(ih _).1.trans ?_, (ih _).2.trans ?_⟩ <;> cases op <;> rfl

theorem response_foldl_fields (os : List BuildOp) (r : Response) :
    (os.foldl Response.applyOp r).Protocol = r.Protocol ∧
      (os.foldl Response.applyOp r).Server = r.Server ∧
      (os.foldl Response.applyOp r).DayStart = r.DayStart := by
  induction os generalizing r with
  | nil => exact ⟨rfl, rfl, rfl⟩
  | cons op os ih =>
    rw [List.foldl_cons]
    refine ⟨(ih _).1.trans ?_, (ih _).2.1.trans ?_, (ih _).2.2.trans ?_⟩ <;> cases op <;> rfl

theorem request_addApp_fold (calls : List (String × String)) (r : Request) :
    (calls.foldl (fun t c => (Request.AddApp t c.1 c.2).1) r).Apps =
      r.Apps ++ calls.map (fun c => { Id := c.1, Version := c.2 }) := by
  induction calls generalizing r with
  | nil => simp
  | cons c cs ih =>
    rw [List.foldl_cons, ih]
    simp [Request.AddApp, List.append_assoc]

theorem response_addApp_fold (calls : List (String × String)) (r : Response) :
    (calls.foldl (fun t c => (Response.AddApp t c.1 c.2).1) r).Apps =
      r.Apps ++ calls.map (fun c => { Id := c.1, Status := c.2 }) := by
  induction calls generalizing r with
  | nil => simp
  | cons c cs ih =>
    rw [List.foldl_cons, ih]
    simp [Response.AddApp, List.append_assoc]

/-! ## The claims. -/

/-- C1: for every `Request` or `Response` tree whose package sizes fit Go's
`uint64` — in particular every tree reachable through the documented builder
methods, which all satisfy that bound — XML-serializing and then deserializing
yields the original tree in all fields, the order of `Apps`, `Events`,
`Packages`, `Actions` and `URLs` included (the result is `Except.ok` of a value
equal to the input, so every sequence is reproduced exactly). -/
theorem c1_roundtrip (r : Request) (s : Response) (ops ops' : List BuildOp)
    (hr : Request.sizesOK r = true) (hs : Response.sizesOK s = true) :
    Request.unmarshal (Request.marshal r) = .ok r ∧
      Response.unmarshal (Response.marshal s) = .ok s ∧
      Request.sizesOK (Request.build ops) = true ∧
      Response.sizesOK (Response.build ops') = true :=
  ⟨request_roundtrip r hr, response_roundtrip s hs,
    request_build_sizesOK ops, response_build_sizesOK ops'⟩

/-- C1 witness: the round-trip evaluated on concrete builder-built trees. -/
theorem c1_roundtrip_witness :
    Request.unmarshal (Request.marshal
        (Request.build [.addApp "{guid}" "1.0.0", .addPing 0, .addEvent 0])) =
      .ok (Request.build [.addApp "{guid}" "1.0.0", .addPing 0, .addEvent 0]) ∧
    Response.unmarshal (Response.marshal
        (Response.build [.addApp "{guid}" "ok", .addUpdateCheck 0, .addURL 0 "http://u/",
          .addManifest 0 "2.0.0", .addPackage 0, .addAction 0 "postinstall"])) =
      .ok (Response.build [.addApp "{guid}" "ok", .addUpdateCheck 0, .addURL 0 "http://u/",
          .addManifest 0 "2.0.0", .addPackage 0, .addAction 0 "postinstall"]) := by
  have h := c1_roundtrip
    (Request.build [.addApp "{guid}" "1.0.0", .addPing 0, .addEvent 0])
    (Response.build [.addApp "{guid}" "ok", .addUpdateCheck 0, .addURL 0 "http://u/",
      .addManifest 0 "2.0.0", .addPackage 0, .addAction 0 "postinstall"])
    [] [] (by rfl) (by rfl)
  exact ⟨h.1, h.2.1⟩

theorem action_attr_spec (a : Omaha.Action) :
    (findAttr "DisablePayloadBackoff" (Action.marshal a).attrs =
      if a.DisablePayloadBackoff then some "true" else none) ∧
    (findAttr "MetadataSignatureRsa" (Action.marshal a).attrs =
      if a.MetadataSignatureRsa = "" then none else some a.MetadataSignatureRsa) ∧
    (findAttr "MetadataSize" (Action.marshal a).attrs =
      if a.MetadataSize = "" then none else some a.MetadataSize) ∧
    (findAttr "deadline" (Action.marshal a).attrs =
      if a.Deadline = "" then none else some a.Deadline) ∧
    (findAttr "ChromeOSVersion" (Action.marshal a).attrs = some a.ChromeOSVersion) ∧
    (findAttr "sha256" (Action.marshal a).attrs = some a.Sha256) := by
  refine ⟨?_, ?_, ?_, ?_, ?_, ?_⟩ <;>
    simp [Action.marshal, Xml.attrs, List.append_assoc, findAttr, findAttr_append,
      findAttr_attrOmit_self, findAttr_attrOmit_ne, findAttr_boolOmit_self,
      findAttr_boolOmit_ne, none_orElse_left, orElse_none_right]

theorem os_attr_spec (o : Omaha.OS) :
    (findAttr "platform" (OS.marshal o).attrs =
      if o.Platform = "" then none else some o.Platform) ∧
    (findAttr "version" (OS.marshal o).attrs =
      if o.Version = "" then none else some o.Version) ∧
    (findAttr "sp" (OS.marshal o).attrs =
      if o.ServicePack = "" then none else some o.ServicePack) ∧
    (findAttr "arch" (OS.marshal o).attrs = if o.Arch = "" then none else some o.Arch) := by
  refine ⟨?_, ?_, ?_, ?_⟩ <;>
    simp [OS.marshal, Xml.attrs, List.append_assoc, findAttr_append, findAttr_attrOmit_self,
      findAttr_attrOmit_ne, none_orElse_left, orElse_none_right]

theorem ping_attr_spec (p : Omaha.Ping) :
    (findAttr "r" (Ping.marshal p).attrs =
      if p.LastReportDays = "" then none else some p.LastReportDays) ∧
    (findAttr "status" (Ping.marshal p).attrs =
      if p.Status = "" then none else some p.Status) := by
  refine ⟨?_, ?_⟩ <;>
    simp [Ping.marshal, Xml.attrs, List.append_assoc, findAttr_append, findAttr_attrOmit_self,
      findAttr_attrOmit_ne, none_orElse_left, orElse_none_right]

theorem event_attr_spec (e : Omaha.Event) :
    (findAttr "previousversion" (Event.marshal e).attrs =
      if e.PreviousVersion = "" then none else some e.PreviousVersion) ∧
    (findAttr "errorcode" (Event.marshal e).attrs =
      if e.ErrorCode = "" then none else some e.ErrorCode) ∧
    (findAttr "status" (Event.marshal e).attrs =
      if e.Status = "" then none else some e.Status) := by
  refine ⟨?_, ?_, ?_⟩ <;>
    simp [Event.marshal, Xml.attrs, List.append_assoc, findAttr, findAttr_append,
      findAttr_attrOmit_self, findAttr_attrOmit_ne, none_orElse_left, orElse_none_right]

theorem updateCheck_attr_spec (u : Omaha.UpdateCheck) :
    (findAttr "targetversionprefix" (UpdateCheck.marshal u).attrs =
      if u.TargetVersionPrefix = "" then none else some u.TargetVersionPrefix) ∧
    (findAttr "status" (UpdateCheck.marshal u).attrs =
      if u.Status = "" then none else some u.Status) := by
  refine ⟨?_, ?_⟩ <;>
    simp [UpdateCheck.marshal, Xml.attrs, List.append_assoc, findAttr_append,
      findAttr_attrOmit_self, findAttr_attrOmit_ne, none_orElse_left, orElse_none_right]

theorem app_attr_spec (ap : App) :
    (findAttr "appid" (App.marshal ap).attrs = if ap.Id = "" then none else some ap.Id) ∧
    (findAttr "version" (App.marshal ap).attrs =
      if ap.Version = "" then none else some ap.Version) ∧
    (findAttr "nextversion" (App.marshal ap).attrs =
      if ap.NextVersion = "" then none else some ap.NextVersion) ∧
    (findAttr "lang" (App.marshal ap).attrs = if ap.Lang = "" then none else some ap.Lang) ∧
    (findAttr "client" (App.marshal ap).attrs =
      if ap.Client = "" then none else some ap.Client) ∧
    (findAttr "installage" (App.marshal ap).attrs =
      if ap.InstallAge = "" then none else some ap.InstallAge) ∧
    (findAttr "status" (App.marshal ap).attrs =
      if ap.Status = "" then none else some ap.Status) ∧
    (findAttr "track" (App.marshal ap).attrs =
      if ap.Track = "" then none else some ap.Track) ∧
    (findAttr "from_track" (App.marshal ap).attrs =
      if ap.FromTrack = "" then none else some ap.FromTrack) ∧
    (findAttr "bootid" (App.marshal ap).attrs =
      if ap.BootId = "" then none else some ap.BootId) ∧
    (findAttr "machineid" (App.marshal ap).attrs =
      if ap.MachineID = "" then none else some ap.MachineID) ∧
    (findAttr "oem" (App.marshal ap).attrs = if ap.OEM = "" then none else some ap.OEM) := by
  refine ⟨?_, ?_, ?_, ?_, ?_, ?_, ?_, ?_, ?_, ?_, ?_, ?_⟩ <;>
    simp [App.marshal, Xml.attrs, List.append_assoc, findAttr_append, findAttr_attrOmit_self,
      findAttr_attrOmit_ne, none_orElse_left, orElse_none_right]

theorem request_attr_spec (r : Request) :
    (findAttr "version" (Request.marshal r).attrs =
      if r.Version = "" then none else some r.Version) ∧
    (findAttr "ismachine" (Request.marshal r).attrs =
      if r.IsMachine = "" then none else some r.IsMachine) ∧
    (findAttr "sessionid" (Request.marshal r).attrs =
      if r.SessionId = "" then none else some r.SessionId) ∧
    (findAttr "userid" (Request.marshal r).attrs =
      if r.UserId = "" then none else some r.UserId) ∧
    (findAttr "installsource" (Request.marshal r).attrs =
      if r.InstallSource = "" then none else some r.InstallSource) ∧
    (findAttr "testsource" (Request.marshal r).attrs =
      if r.TestSource = "" then none else some r.TestSource) ∧
    (findAttr "requestid" (Request.marshal r).attrs =
      if r.RequestId = "" then none else some r.RequestId) ∧
    (findAttr "updaterversion" (Request.marshal r).attrs =
      if r.UpdaterVersion = "" then none else some r.UpdaterVersion) := by
  refine ⟨?_, ?_, ?_, ?_, ?_, ?_, ?_, ?_⟩ <;>
    simp [Request.marshal, Xml.attrs, List.append_assoc, findAttr, findAttr_append,
      findAttr_attrOmit_self, findAttr_attrOmit_ne, none_orElse_left, orElse_none_right]

/-- C2 counterexample: an `Action` with every optional extension field at its
zero value still carries `ChromeOSVersion=""` and `sha256=""` attributes in
its serialized form — the attributes are present with empty value, not
omitted, because the source tags them without `omitempty`. -/
theorem c2_counterexample :
    findAttr "ChromeOSVersion" (Action.marshal { Event := "postinstall" }).attrs = some "" ∧
      findAttr "sha256" (Action.marshal { Event := "postinstall" }).attrs = some "" := by
  exact ⟨rfl, rfl⟩

/-- C2 as amended: every field the source tags `omitempty` is absent from the
serialized document exactly when it is zero and appears with exactly the set
value otherwise; but `Action.ChromeOSVersion` and `Action.Sha256` (despite the
spec calling them optional) are rendered unconditionally, like `Event`,
`NeedsAdmin` and `IsDelta`. -/
theorem c2_omission (o : Omaha.OS) (p : Omaha.Ping) (e : Omaha.Event) (a : Omaha.Action)
    (u : Omaha.UpdateCheck) (ap : App) (r : Request) :
    (findAttr "DisablePayloadBackoff" (Action.marshal a).attrs =
      if a.DisablePayloadBackoff then some "true" else none) ∧
    (findAttr "MetadataSignatureRsa" (Action.marshal a).attrs =
      if a.MetadataSignatureRsa = "" then none else some a.MetadataSignatureRsa) ∧
    (findAttr "MetadataSize" (Action.marshal a).attrs =
      if a.MetadataSize = "" then none else some a.MetadataSize) ∧
    (findAttr "deadline" (Action.marshal a).attrs =
      if a.Deadline = "" then none else some a.Deadline) ∧
    (findAttr "ChromeOSVersion" (Action.marshal a).attrs = some a.ChromeOSVersion) ∧
    (findAttr "sha256" (Action.marshal a).attrs = some a.Sha256) ∧
    (findAttr "platform" (OS.marshal o).attrs =
      if o.Platform = "" then none else some o.Platform) ∧
    (findAttr "version" (OS.marshal o).attrs =
      if o.Version = "" then none else some o.Version) ∧
    (findAttr "sp" (OS.marshal o).attrs =
      if o.ServicePack = "" then none else some o.ServicePack) ∧
    (findAttr "arch" (OS.marshal o).attrs =
      if o.Arch = "" then none else some o.Arch) ∧
    (findAttr "r" (Ping.marshal p).attrs =
      if p.LastReportDays = "" then none else some p.LastReportDays) ∧
    (findAttr "status" (Ping.marshal p).attrs =
      if p.Status = "" then none else some p.Status) ∧
    (findAttr "previousversion" (Event.marshal e).attrs =
      if e.PreviousVersion = "" then none else some e.PreviousVersion) ∧
    (findAttr "errorcode" (Event.marshal e).attrs =
      if e.ErrorCode = "" then none else some e.ErrorCode) ∧
    (findAttr "status" (Event.marshal e).attrs =
      if e.Status = "" then none else some e.Status) ∧
    (findAttr "targetversionprefix" (UpdateCheck.marshal u).attrs =
      if u.TargetVersionPrefix = "" then none else some u.TargetVersionPrefix) ∧
    (findAttr "status" (UpdateCheck.marshal u).attrs =
      if u.Status = "" then none else some u.Status) ∧
    (findAttr "appid" (App.marshal ap).attrs = if ap.Id = "" then none else some ap.Id) ∧
    (findAttr "version" (App.marshal ap).attrs =
      if ap.Version = "" then none else some ap.Version) ∧
    (findAttr "nextversion" (App.marshal ap).attrs =
      if ap.NextVersion = "" then none else some ap.NextVersion) ∧
    (findAttr "lang" (App.marshal ap).attrs = if ap.Lang = "" then none else some ap.Lang) ∧
    (findAttr "client" (App.marshal ap).attrs =
      if ap.Client = "" then none else some ap.Client) ∧
    (findAttr "installage" (App.marshal ap).attrs =
      if ap.InstallAge = "" then none else some ap.InstallAge) ∧
    (findAttr "status" (App.marshal ap).attrs =
      if ap.Status = "" then none else some ap.Status) ∧
    (findAttr "track" (App.marshal ap).attrs =
      if ap.Track = "" then none else some ap.Track) ∧
    (findAttr "from_track" (App.marshal ap).attrs =
      if ap.FromTrack = "" then none else some ap.FromTrack) ∧
    (findAttr "bootid" (App.marshal ap).attrs =
      if ap.BootId = "" then none else some ap.BootId) ∧
    (findAttr "machineid" (App.marshal ap).attrs =
      if ap.MachineID = "" then none else some ap.MachineID) ∧
    (findAttr "oem" (App.marshal ap).attrs = if ap.OEM = "" then none else some ap.OEM) ∧
    (findAttr "version" (Request.marshal r).attrs =
      if r.Version = "" then none else some r.Version) ∧
    (findAttr "ismachine" (Request.marshal r).attrs =
      if r.IsMachine = "" then none else some r.IsMachine) ∧
    (findAttr "sessionid" (Request.marshal r).attrs =
      if r.SessionId = "" then none else some r.SessionId) ∧
    (findAttr "userid" (Request.marshal r).attrs =
      if r.UserId = "" then none else some r.UserId) ∧
    (findAttr "installsource" (Request.marshal r).attrs =
      if r.InstallSource = "" then none else some r.InstallSource) ∧
    (findAttr "testsource" (Request.marshal r).attrs =
      if r.TestSource = "" then none else some r.TestSource) ∧
    (findAttr "requestid" (Request.marshal r).attrs =
      if r.RequestId = "" then none else some r.RequestId) ∧
    (findAttr "updaterversion" (Request.marshal r).attrs =
      if r.UpdaterVersion = "" then none else some r.UpdaterVersion) := by
  obtain ⟨a1, a2, a3, a4, a5, a6⟩ := action_attr_spec a
  obtain ⟨o1, o2, o3, o4⟩ := os_attr_spec o
  obtain ⟨p1, p2⟩ := ping_attr_spec p
  obtain ⟨e1, e2, e3⟩ := event_attr_spec e
  obtain ⟨u1, u2⟩ := updateCheck_attr_spec u
  obtain ⟨b1, b2, b3, b4, b5, b6, b7, b8, b9, b10, b11, b12⟩ := app_attr_spec ap
  obtain ⟨r1, r2, r3, r4, r5, r6, r7, r8⟩ := request_attr_spec r
  exact ⟨a1, a2, a3, a4, a5, a6, o1, o2, o3, o4, p1, p2, e1, e2, e3, u1, u2,
    b1, b2, b3, b4, b5, b6, b7, b8, b9, b10, b11, b12, r1, r2, r3, r4, r5, r6, r7, r8⟩

/-- C3: an `UpdateCheck` on which `AddURL` was never called (its `URLs` field
is nil) serializes with no `urls` element at all; and after exactly one
`AddURL codebase` call, serializing and then deserializing yields an
`UpdateCheck` whose `URLs` wrapper holds exactly the one entry with that
codebase, all other fields unchanged. -/
theorem c3_urls_suppression (u : Omaha.UpdateCheck) (cb : String) :
    (u.URLs = none → findChild "urls" (UpdateCheck.marshal u).children = none) ∧
      (u.URLs = none → UpdateCheck.sizesOK u = true →
        UpdateCheck.unmarshal (UpdateCheck.marshal (u.AddURL cb)) =
          .ok { u with URLs := some { URLs := [{ CodeBase := cb }] } }) := by
  constructor
  · intro h
    cases hm : u.Manifest <;>
      simp [UpdateCheck.marshal, Xml.children, optChild, findChild, h, hm,
        Manifest.marshal, Xml.name]
  · intro h hsz
    have hadd : u.AddURL cb = { u with URLs := some { URLs := [{ CodeBase := cb }] } } := by
      simp [UpdateCheck.AddURL, h]
    rw [hadd]
    exact updateCheck_roundtrip _ hsz

/-- C3 witness: evaluated on the zero `UpdateCheck` and a concrete codebase. -/
theorem c3_urls_suppression_witness :
    findChild "urls" (UpdateCheck.marshal {}).children = none ∧
      UpdateCheck.unmarshal (UpdateCheck.marshal (UpdateCheck.AddURL {} "http://cb/")) =
        .ok { URLs := some { URLs := [{ CodeBase := "http://cb/" }] } } :=
  ⟨(c3_urls_suppression {} "http://cb/").1 rfl,
    (c3_urls_suppression {} "http://cb/").2 rfl rfl⟩

/-- C4: a serialized `Manifest` always carries the `packages` and `actions`
grouping elements, holding exactly the marshalled package and action lists —
also when those lists are empty; the grouping elements are not suppressed the
way `urls` is. -/
theorem c4_manifest_groups (m : Omaha.Manifest) :
    findChild "packages" (Manifest.marshal m).children =
      some (Xml.elem "packages" [] (m.Packages.map Package.marshal)) ∧
    findChild "actions" (Manifest.marshal m).children =
      some (Xml.elem "actions" [] (m.Actions.map Action.marshal)) := by
  constructor <;> simp [Manifest.marshal, Xml.children, findChild, Xml.name]

/-- C5 counterexample: a document whose `event` element lacks the mandatory
`eventtype` and `eventresult` attributes (and whose root lacks `protocol`)
decodes successfully, every missing field silently defaulted to its zero
value — the claim asserts such input is reported as a decode failure. -/
theorem c5_counterexample :
    Response.unmarshal (Xml.elem "response" [] [Xml.elem "app" [] [Xml.elem "event" [] []]]) =
      .ok { Apps := [{ Events := [{}] }] } := by
  rfl

/-- C5 as amended: deserialization reports a decode failure when the root
element is not the expected `request`/`response`; but input lacking mandatory
attributes such as `Event.Type`, `Event.Result`, `Manifest.Version`,
`Package.Hash`/`Name`/`Size` or `Action.Event` decodes without error, the
missing fields silently defaulted to their zero values. -/
theorem c5_decode_errors (x : Xml) :
    (¬ x.name = "request" → Request.unmarshal x =
      .error ("expected element type <request> but have <" ++ x.name ++ ">")) ∧
    (¬ x.name = "response" → Response.unmarshal x =
      .error ("expected element type <response> but have <" ++ x.name ++ ">")) ∧
    Response.unmarshal (Xml.elem "response" [] [Xml.elem "app" [] [Xml.elem "event" [] []]]) =
      .ok { Apps := [{ Events := [{}] }] } ∧
    Package.unmarshal (Xml.elem "package" [] []) = .ok {} ∧
    Action.unmarshal (Xml.elem "action" [] []) = .ok {} ∧
    Manifest.unmarshalInto {} (Xml.elem "manifest" [] []) = .ok {} := by
  refine ⟨fun h => ?_, fun h => ?_, rfl, rfl, rfl, rfl⟩
  · simp [Request.unmarshal, h]
  · simp [Response.unmarshal, h]

/-- C5 witness: a wrong root element is rejected with the expected error. -/
theorem c5_decode_errors_witness :
    Request.unmarshal (Xml.elem "update" [] []) =
      .error "expected element type <request> but have <update>" ∧
    Response.unmarshal (Xml.elem "update" [] []) =
      .error "expected element type <response> but have <update>" :=
  ⟨(c5_decode_errors (Xml.elem "update" [] [])).1 (by decide),
    (c5_decode_errors (Xml.elem "update" [] [])).2.1 (by decide)⟩

/-- C6 counterexample: `Package.Required` set to `true` serializes as
`required="true"` — not as `"1"` or `"0"` as the claim states (Go renders
booleans with `strconv.FormatBool`). -/
theorem c6_counterexample :
    ¬ (findAttr "required"
        (Package.marshal { Hash := "h", Name := "n", Size := 1024, Required := true }).attrs
          = some "0" ∨
       findAttr "required"
        (Package.marshal { Hash := "h", Name := "n", Size := 1024, Required := true }).attrs
          = some "1") := by
  decide

/-- C6 as amended: `Package.Required`, `Action.NeedsAdmin` and `Action.IsDelta`
render unconditionally as boolean attributes with value `"true"`/`"false"`;
`Action.DisablePayloadBackoff` follows the `omitempty` rule (absent when
false, `"true"` when set); and `Package.Size` renders as a non-negative
decimal integer (a non-empty string of digits). -/
theorem c6_wire_forms (p : Omaha.Package) (a : Omaha.Action) :
    findAttr "required" (Package.marshal p).attrs =
      some (if p.Required then "true" else "false") ∧
    findAttr "needsadmin" (Action.marshal a).attrs =
      some (if a.NeedsAdmin then "true" else "false") ∧
    findAttr "IsDelta" (Action.marshal a).attrs =
      some (if a.IsDelta then "true" else "false") ∧
    findAttr "DisablePayloadBackoff" (Action.marshal a).attrs =
      (if a.DisablePayloadBackoff then some "true" else none) ∧
    findAttr "size" (Package.marshal p).attrs = some (uintToString p.Size) ∧
    (uintToString p.Size).data ≠ [] ∧
    (uintToString p.Size).data.all Char.isDigit = true := by
  refine ⟨?_, ?_, ?_, (action_attr_spec a).1, ?_, ?_, uintToString_isDigit p.Size⟩
  · simp [Package.marshal, Xml.attrs, findAttr, boolString]
  · simp [Action.marshal, Xml.attrs, findAttr, boolString]
  · simp [Action.marshal, Xml.attrs, findAttr, boolString]
  · simp [Package.marshal, Xml.attrs, findAttr]
  · by_cases h0 : p.Size = 0
    · simp [uintToString, h0]
    · simp [uintToString, h0, Nat.digits_ne_nil_iff_ne_zero]

/-- C7: every tree reachable from `NewRequest`/`NewResponse` by any sequence
of builder calls has, in every `UpdateCheck`, a `URLs` field that is either
nil or wraps at least one `URL`; and `AddURL` allocates the wrapper on first
use and appends afterwards, so no builder step creates an empty wrapper. -/
theorem c7_urls_invariant (ops ops' : List BuildOp) (u : Omaha.UpdateCheck) (cb : String) :
    Request.urlsOK (Request.build ops) = true ∧
      Response.urlsOK (Response.build ops') = true ∧
      (u.AddURL cb).URLs = some { URLs := (u.URLs.getD {}).URLs ++ [{ CodeBase := cb }] } := by
  refine ⟨request_build_urlsOK ops, response_build_urlsOK ops', ?_⟩
  cases hu : u.URLs <;> simp [UpdateCheck.AddURL, hu]

/-- C8: the protocol, library-version, server and day-start fields are fixed
at construction — `NewRequest` carries protocol `"3.0"` and the library
version string, `NewResponse` carries protocol `"3.0"`, server `"mantle"` and
elapsed seconds `"0"` — and they keep those values after any sequence of
builder calls. -/
theorem c8_fixed_fields (ops ops' : List BuildOp) :
    NewRequest.Protocol = "3.0" ∧ NewRequest.Version = libraryVersion ∧
    NewResponse.Protocol = "3.0" ∧ NewResponse.Server = "mantle" ∧
    NewResponse.DayStart.ElapsedSeconds = "0" ∧
    (Request.build ops).Protocol = "3.0" ∧
    (Request.build ops).Version = libraryVersion ∧
    (Response.build ops').Protocol = "3.0" ∧
    (Response.build ops').Server = "mantle" ∧
    (Response.build ops').DayStart.ElapsedSeconds = "0" := by
  refine ⟨rfl, rfl, rfl, rfl, rfl, ?_, ?_, ?_, ?_, ?_⟩
  · exact (request_foldl_fields ops NewRequest).1
  · exact (request_foldl_fields ops NewRequest).2
  · exact (response_foldl_fields ops' NewResponse).1
  · exact (response_foldl_fields ops' NewResponse).2.1
  · exact congrArg DayStart.ElapsedSeconds (response_foldl_fields ops' NewResponse).2.2

/-- C9: `AddApp` appends exactly one new `App` carrying the given identifier
and version (request side) or status (response side) to the end of the `Apps`
sequence and returns that same appended `App`; a whole sequence of calls
yields exactly the call list in call order, with no uniqueness check on the
identifier (duplicate ids simply produce two entries). -/
theorem c9_addApp (r : Request) (s : Response) (id v st : String)
    (calls : List (String × String)) :
    (r.AddApp id v).1.Apps = r.Apps ++ [(r.AddApp id v).2] ∧
    (r.AddApp id v).2 = { Id := id, Version := v } ∧
    (s.AddApp id st).1.Apps = s.Apps ++ [(s.AddApp id st).2] ∧
    (s.AddApp id st).2 = { Id := id, Status := st } ∧
    (calls.foldl (fun t c => (Request.AddApp t c.1 c.2).1) r).Apps =
      r.Apps ++ calls.map (fun c => { Id := c.1, Version := c.2 }) ∧
    (calls.foldl (fun t c => (Response.AddApp t c.1 c.2).1) s).Apps =
      s.Apps ++ calls.map (fun c => { Id := c.1, Status := c.2 }) :=
  ⟨rfl, rfl, rfl, rfl, request_addApp_fold calls r, response_addApp_fold calls s⟩

/-- C10: `AddUpdateCheck` discards whatever `UpdateCheck` the app held and
stores a fresh zero one — nil `URLs`, nil `Manifest`, empty `Status` and
`TargetVersionPrefix` — returning exactly the stored value, with no merging
of the old contents. -/
theorem c10_addUpdateCheck (a : App) :
    a.AddUpdateCheck.1 = { a with UpdateCheck := some a.AddUpdateCheck.2 } ∧
    a.AddUpdateCheck.2 =
      { URLs := none, Manifest := none, TargetVersionPrefix := "", Status := "" } :=
  ⟨rfl, rfl⟩

end Omaha
